import Mathlib

/-!
Verification of the client-side optimistic messaging and synchronization model
(`useMessaging` in `src/hooks/useMessaging.ts` of the hipotrack repository).

The hook's state (`conversations`, `messagesByConversation`, `selectedConversationId`,
loading flags, `sending`, `error`) is embedded as a record `MessagingState`; the
JavaScript object `Record<string, ConversationMessage[]>` is embedded as an
association list with JavaScript object-spread update semantics (an existing key
keeps its position, a new key is appended). Each React state updater in the
source is embedded as a pure function from prior state to next state, and the
asynchronous pipelines (`fetchConversations`, `fetchMessages`, `sendMessage`,
and the realtime INSERT handlers) become pure functions parameterised by an
environment that supplies the results the backend returns (`Except` for
fallible calls). Network calls performed by `sendMessage` are recorded in a
trace so that abort-before-network claims are statable.
-/

namespace Messaging

/-- Delivery status of a message or attachment: "pending" | "sent" | "error". -/
inductive DeliveryStatus where
  | pending
  | sent
  | error
deriving DecidableEq, Repr

/-- The `MessagingUser` passed to the hook (`currentUser`). -/
structure MessagingUser where
  id : String
  name : String
  role : String
  avatarUrl : Option String
deriving DecidableEq, Repr

/-- `ParticipantProfile` from the source. -/
structure ParticipantProfile where
  id : String
  displayName : String
  avatarUrl : Option String
  role : String
  isCurrentUser : Bool
deriving DecidableEq, Repr

/-- `MessageAttachment` from the source. -/
structure MessageAttachment where
  id : String
  messageId : String
  name : String
  url : Option String
  contentType : Option String
  size : Option Int
  createdAt : String
  status : DeliveryStatus
deriving DecidableEq, Repr

/-- `ConversationMessage` from the source. -/
structure ConversationMessage where
  id : String
  conversationId : String
  content : String
  topic : Option String
  createdAt : String
  sender : ParticipantProfile
  attachments : List MessageAttachment
  status : DeliveryStatus
  optimisticKey : Option String
deriving DecidableEq, Repr

/-- `ConversationPreview` from the source. -/
structure ConversationPreview where
  id : String
  title : Option String
  updatedAt : String
  participants : List ParticipantProfile
  lastMessage : Option ConversationMessage
deriving DecidableEq, Repr

/-- A row of the `participants` table (fields selected by the hook). -/
structure ParticipantRow where
  user_id : String
  role : String
  display_name : String
  avatar_url : Option String
deriving DecidableEq, Repr

/-- A row of the `messages` table (fields selected by the hook). -/
structure MessageRow where
  id : String
  conversation_id : String
  content : String
  created_at : String
  sender_id : String
  sender_role : String
  topic : Option String
deriving DecidableEq, Repr

/-- A row of the `attachments` table (fields selected by the hook). -/
structure AttachmentRow where
  id : String
  message_id : String
  name : String
  url : Option String
  content_type : Option String
  storage_path : Option String
  size : Option Int
  created_at : String
deriving DecidableEq, Repr

/-- `MessageWithAttachments`: a message row joined with its attachment rows. -/
structure MessageWithAttachments where
  row : MessageRow
  attachments : List AttachmentRow
deriving DecidableEq, Repr

/-- `ConversationSelectRow`: the shape returned by the directory query
(conversation row joined with participants and latest message). -/
structure ConversationSelectRow where
  id : String
  title : Option String
  updated_at : String
  participants : List ParticipantRow
  latest_message : List MessageWithAttachments
deriving DecidableEq, Repr

/-- The JavaScript object `Record<string, ConversationMessage[]>`
(`messagesByConversation`), kept as an association list in key-insertion
order, which is what `Object.entries` iterates. -/
abbrev MessagesMap := List (String × List ConversationMessage)

/-- Lookup `previous[k]` on the record. -/
def recFind (rec : MessagesMap) (k : String) : Option (List ConversationMessage) :=
  (rec.find? (fun e => decide (e.1 = k))).map Prod.snd

/-- Lookup `previous[k] ?? []` on the record. -/
def recGetD (rec : MessagesMap) (k : String) : List ConversationMessage :=
  (recFind rec k).getD []

/-- JavaScript object-spread update `\x7b ...previous, [k]: v \x7d`: an existing
key keeps its position with the new value; a fresh key is appended last. -/
def recSet : MessagesMap → String → List ConversationMessage → MessagesMap
  | [], k, v => [(k, v)]
  | e :: rest, k, v => if e.1 = k then (k, v) :: rest else e :: recSet rest k v

/-- The full hook state: one field per `useState` of `useMessaging`. -/
structure MessagingState where
  conversations : List ConversationPreview
  messagesByConversation : MessagesMap
  selectedConversationId : Option String
  loadingConversations : Bool
  loadingMessages : Bool
  sending : Bool
  error : Option String
deriving DecidableEq, Repr

/-- `formatParticipant` from the source. -/
def formatParticipant (row : ParticipantRow) (currentUserId : Option String) :
    ParticipantProfile :=
  { id := row.user_id
    displayName := row.display_name
    avatarUrl := row.avatar_url
    role := row.role
    isCurrentUser := currentUserId = some row.user_id }

/-- `formatAttachment` from the source. -/
def formatAttachment (row : AttachmentRow) : MessageAttachment :=
  { id := row.id
    messageId := row.message_id
    name := row.name
    url := row.url
    contentType := row.content_type
    size := row.size
    createdAt := row.created_at
    status := .sent }

/-- `formatMessage` from the source; `status` and `attachmentOverrides` are the
two optional parameters (defaults `"sent"` and `undefined` at the call sites
that omit them). -/
def formatMessage (row : MessageRow) (rowAttachments : List AttachmentRow)
    (participants : List ParticipantProfile) (fallbackSender : ParticipantProfile)
    (status : DeliveryStatus) (attachmentOverrides : Option (List MessageAttachment)) :
    ConversationMessage :=
  let sender := (participants.find? (fun p => decide (p.id = row.sender_id))).getD fallbackSender
  { id := row.id
    conversationId := row.conversation_id
    content := row.content
    topic := row.topic
    createdAt := row.created_at
    sender := sender
    attachments := attachmentOverrides.getD (rowAttachments.map formatAttachment)
    status := status
    optimisticKey := none }

/-- The participant profile synthesised from the viewer's own `currentUser`
record, used as fallback sender in `fetchMessages`, the push handler and
`sendMessage`. -/
def viewerProfile (u : MessagingUser) : ParticipantProfile :=
  { id := u.id
    displayName := u.name
    avatarUrl := u.avatarUrl
    role := u.role
    isCurrentUser := true }

/-- `getParticipants` from the source: the roster cached for a conversation, or
`[]` when the conversation is not in the directory. -/
def getParticipants (conversations : List ConversationPreview) (conversationId : String) :
    List ParticipantProfile :=
  ((conversations.find? (fun c => decide (c.id = conversationId))).map
    ConversationPreview.participants).getD []

/-- `mapConversation` from the source. -/
def mapConversation (row : ConversationSelectRow) (currentUserId : Option String) :
    ConversationPreview :=
  let participants := row.participants.map (fun p => formatParticipant p currentUserId)
  let fallbackSender := (participants.find? (fun p => p.isCurrentUser)).getD
    { id := currentUserId.getD ""
      displayName := "You"
      avatarUrl := none
      role := "member"
      isCurrentUser := true }
  { id := row.id
    title := row.title
    updatedAt := row.updated_at
    participants := participants
    lastMessage := row.latest_message.head?.map
      (fun lm => formatMessage lm.row lm.attachments participants fallbackSender .sent none) }

/-- The conversation-directory updater repeated verbatim at the three mutation
sites of the source (optimistic send, insert-failure-free reconciliation, and
the push handler): find the conversation, return the list unchanged when it is
absent, otherwise move it to the front with `updatedAt` and `lastMessage`
replaced, the remaining conversations following in their previous order. -/
def promoteConversation (conversationId : String) (last : ConversationMessage)
    (updatedAt : String) (previous : List ConversationPreview) :
    List ConversationPreview :=
  match previous.find? (fun c => decide (c.id = conversationId)) with
  | none => previous
  | some c =>
      { c with updatedAt := updatedAt, lastMessage := some last } ::
        previous.filter (fun c => !(decide (c.id = conversationId)))

/-- `fetchConversations`: the whole pipeline as a function of the backend
result.  `result` is what the awaited directory query returns. -/
def fetchConversations (currentUser : Option MessagingUser)
    (result : Except String (List ConversationSelectRow)) (st : MessagingState) :
    MessagingState :=
  match currentUser with
  | none => st
  | some u =>
      match result with
      | .error msg => { st with error := some msg, loadingConversations := false }
      | .ok data =>
          let formatted := data.map (fun row => mapConversation row (some u.id))
          let st1 := { st with conversations := formatted, loadingConversations := false }
          match st.selectedConversationId, formatted.head? with
          | none, some first => { st1 with selectedConversationId := some first.id }
          | _, _ => st1

/-- The fallback sender used by `fetchMessages` and the message push handler:
the viewer's entry in the cached roster, else a profile synthesised from
`currentUser`. -/
def fallbackSenderFor (u : MessagingUser) (participants : List ParticipantProfile) :
    ParticipantProfile :=
  (participants.find? (fun p => p.isCurrentUser)).getD (viewerProfile u)

/-- `fetchMessages conversationId`: the whole pipeline as a function of the
backend result (the awaited message-history query). -/
def fetchMessages (currentUser : Option MessagingUser) (conversationId : String)
    (result : Except String (List MessageWithAttachments)) (st : MessagingState) :
    MessagingState :=
  match currentUser with
  | none => st
  | some u =>
      match result with
      | .error msg => { st with error := some msg, loadingMessages := false }
      | .ok data =>
          let participants := getParticipants st.conversations conversationId
          let fallbackSender := fallbackSenderFor u participants
          let formatted := data.map
            (fun row => formatMessage row.row row.attachments participants fallbackSender .sent none)
          { st with
              messagesByConversation := recSet st.messagesByConversation conversationId formatted
              loadingMessages := false }

/-- The formed message of the realtime `messages` INSERT handler: sender
resolved against the cached roster, attachments from the one-shot lookup. -/
def pushFormattedMessage (u : MessagingUser) (messageRow : MessageRow)
    (attachmentRows : List AttachmentRow) (conversations : List ConversationPreview) :
    ConversationMessage :=
  let participants := getParticipants conversations messageRow.conversation_id
  formatMessage messageRow attachmentRows participants (fallbackSenderFor u participants)
    .sent none

/-- The `setMessagesByConversation` updater of the `messages` INSERT handler:
append the formed message (with status `"sent"`) to its conversation's cached
list unless a message with the same id is already present. -/
def mergeMessageInsert (previous : MessagesMap) (conversationId : String)
    (formattedMessage : ConversationMessage) : MessagesMap :=
  if (recGetD previous conversationId).any (fun m => decide (m.id = formattedMessage.id)) then
    previous
  else
    recSet previous conversationId
      (recGetD previous conversationId ++ [{ formattedMessage with status := .sent }])

/-- The realtime `messages` INSERT handler (`useMessaging` channel callback):
`attachmentRows` is what the awaited per-event attachment lookup returned. -/
def pushMessageHandler (u : MessagingUser) (messageRow : MessageRow)
    (attachmentRows : List AttachmentRow) (st : MessagingState) : MessagingState :=
  let formattedMessage := pushFormattedMessage u messageRow attachmentRows st.conversations
  { st with
      messagesByConversation :=
        mergeMessageInsert st.messagesByConversation messageRow.conversation_id formattedMessage
      conversations :=
        promoteConversation messageRow.conversation_id
          { formattedMessage with status := .sent } messageRow.created_at st.conversations }

/-- The realtime `attachments` INSERT handler: find the first cached
conversation containing the owning message (the `Object.entries(...).find`
scan), drop the event when there is none, otherwise merge the attachment into
that message's list (same-id attachment replaced, new one appended, status
`"sent"`). -/
def pushAttachmentHandler (attachmentRow : AttachmentRow) (st : MessagingState) :
    MessagingState :=
  let attachment := formatAttachment attachmentRow
  let previous := st.messagesByConversation
  match previous.find? (fun e => e.2.any (fun m => decide (m.id = attachment.messageId))) with
  | none => st
  | some entry =>
      { st with
          messagesByConversation := recSet previous entry.1
            (entry.2.map (fun m =>
              if m.id = attachment.messageId then
                { m with attachments :=
                    (m.attachments.filter (fun e => !(decide (e.id = attachment.id)))) ++
                      [{ attachment with status := .sent }] }
              else m)) }

/-- JavaScript `content.trim()`: remove whitespace from both ends (embedded as
an executable list computation rather than `String.trim`). -/
def jsTrim (s : String) : String :=
  String.mk (((s.data.dropWhile Char.isWhitespace).reverse.dropWhile
    Char.isWhitespace).reverse)

/-- A local `File` as `sendMessage` reads it: `name`, `type` (the empty string
when the browser has none — the source nulls it with `file.type || null`) and
`size` (`file.size ?? null`). -/
structure FileInput where
  name : String
  fileType : String
  size : Option Int
deriving DecidableEq, Repr

/-- `file.type || null` from the source: the empty string is falsy. -/
def fileContentType (file : FileInput) : Option String :=
  if file.fileType = "" then none else some file.fileType

/-- `SendMessageOptions` from the source. -/
structure SendMessageOptions where
  conversationId : String
  content : String
  topic : Option String
  attachments : List FileInput
deriving DecidableEq, Repr

/-- One network call performed by the send pipeline (recorded as a trace so
that abort-before-network claims are statable). -/
inductive NetCall where
  | insertMsg
  | upload (index : Nat)
  | insertAttach (index : Nat)
deriving DecidableEq, Repr

/-- Result of the awaited message-row insert: either a failure (with the
optional backend message, `insertError?.message`) or the server-assigned id and
timestamp of the inserted row, whose remaining columns echo the insert payload. -/
inductive InsertMessageOutcome where
  | ierror (message : Option String)
  | iok (serverId : String) (serverCreatedAt : String)
deriving DecidableEq, Repr

/-- Outcome of one attachment's upload and row insert: the upload fails; or the
upload succeeds at a storage path and the row insert fails; or both succeed and
the server assigns the attachment row an id and timestamp (its remaining
columns echo the insert payload). -/
inductive AttachmentOutcome where
  | uploadError (message : String)
  | rowError (path : String) (message : String)
  | rowOk (path : String) (serverId : String) (serverCreatedAt : String)
deriving DecidableEq, Repr

/-- The environment of one `sendMessage` run: the client-generated temporary id
(`crypto.randomUUID()`), the client timestamp (`new Date().toISOString()`), the
backend's answers to the message insert and to each attachment's
upload/row-insert (by attachment index), and the storage service's
public-URL derivation (`getPublicUrl`). -/
structure SendEnv where
  temporaryId : String
  createdAt : String
  insertOutcome : InsertMessageOutcome
  attachmentOutcomes : Nat → AttachmentOutcome
  publicUrl : String → String

/-- The speculative attachments `attachments.map((file, index) => ...)` of the
source, built here from `index` upward. -/
def optimisticAttachmentsFrom (temporaryId : String) (createdAt : String) :
    Nat → List FileInput → List MessageAttachment
  | _, [] => []
  | index, file :: rest =>
      { id := temporaryId ++ "-attachment-" ++ toString index
        messageId := temporaryId
        name := file.name
        url := none
        contentType := fileContentType file
        size := file.size
        createdAt := createdAt
        status := .pending } ::
        optimisticAttachmentsFrom temporaryId createdAt (index + 1) rest

/-- The sender profile of `sendMessage`: the viewer's entry in the cached
roster (matched by id), else a profile synthesised from `currentUser`. -/
def senderProfileFor (u : MessagingUser) (participants : List ParticipantProfile) :
    ParticipantProfile :=
  (participants.find? (fun p => decide (p.id = u.id))).getD (viewerProfile u)

/-- The speculative `optimisticMessage` of `sendMessage`. -/
def optimisticMessageOf (u : MessagingUser) (env : SendEnv) (opts : SendMessageOptions)
    (st : MessagingState) : ConversationMessage :=
  { id := env.temporaryId
    conversationId := opts.conversationId
    content := jsTrim opts.content
    topic := opts.topic
    createdAt := env.createdAt
    sender := senderProfileFor u (getParticipants st.conversations opts.conversationId)
    attachments := optimisticAttachmentsFrom env.temporaryId env.createdAt 0 opts.attachments
    status := .pending
    optimisticKey := some env.temporaryId }

/-- The synchronous speculation step of `sendMessage`: append the optimistic
message to its conversation's cached list, promote the conversation, and set
the `sending` flag — all before the first network call. -/
def speculatePhase (optimisticMessage : ConversationMessage) (conversationId : String)
    (createdAt : String) (st : MessagingState) : MessagingState :=
  { st with
      messagesByConversation := recSet st.messagesByConversation conversationId
        (recGetD st.messagesByConversation conversationId ++ [optimisticMessage])
      conversations := promoteConversation conversationId optimisticMessage createdAt st.conversations
      sending := true }

/-- The insert-failure branch of `sendMessage`: surface the failure string,
mark the temporary-id entry `"error"` in place, clear the `sending` flag. -/
def markInsertErrorPhase (conversationId : String) (temporaryId : String)
    (errorMessage : String) (st : MessagingState) : MessagingState :=
  { st with
      error := some errorMessage
      messagesByConversation := recSet st.messagesByConversation conversationId
        ((recGetD st.messagesByConversation conversationId).map (fun m =>
          if m.id = temporaryId then { m with status := .error } else m))
      sending := false }

/-- One iteration of the attachment loop of `sendMessage` for the file at
`index`: the `MessageAttachment` pushed onto `uploadedAttachments`, the error
string passed to `setError` (if any), and the network calls performed. -/
def attachmentStep (env : SendEnv) (createdAt : String) (serverMessageId : String)
    (index : Nat) (file : FileInput) :
    MessageAttachment × Option String × List NetCall :=
  match env.attachmentOutcomes index with
  | .uploadError msg =>
      ({ id := serverMessageId ++ "-attachment-error-" ++ toString index
         messageId := serverMessageId
         name := file.name
         url := none
         contentType := fileContentType file
         size := file.size
         createdAt := createdAt
         status := .error }, some msg, [.upload index])
  | .rowError path msg =>
      ({ id := serverMessageId ++ "-attachment-error-" ++ toString index
         messageId := serverMessageId
         name := file.name
         url := some (env.publicUrl path)
         contentType := fileContentType file
         size := file.size
         createdAt := createdAt
         status := .error }, some msg, [.upload index, .insertAttach index])
  | .rowOk path serverId serverCreatedAt =>
      ({ formatAttachment
          { id := serverId
            message_id := serverMessageId
            name := file.name
            url := some (env.publicUrl path)
            content_type := fileContentType file
            storage_path := some path
            size := file.size
            created_at := serverCreatedAt } with
          status := .sent }, none, [.upload index, .insertAttach index])

/-- The attachment loop of `sendMessage` from `index` upward: the accumulated
`uploadedAttachments`, the error string left in state by the loop's `setError`
calls (the last failure wins), and the trace of network calls. -/
def attachmentLoop (env : SendEnv) (createdAt : String) (serverMessageId : String) :
    Nat → List FileInput → List MessageAttachment × Option String × List NetCall
  | _, [] => ([], none, [])
  | index, file :: rest =>
      let step := attachmentStep env createdAt serverMessageId index file
      let tail := attachmentLoop env createdAt serverMessageId (index + 1) rest
      (step.1 :: tail.1,
       (match tail.2.1 with
        | some m => some m
        | none => step.2.1),
       step.2.2 ++ tail.2.2)

/-- The `deliveredMessage` of `sendMessage`: the server-confirmed row formatted
with status `"error"` exactly when some attachment ended in `"error"`, the
attachment outcomes overriding when the send carried attachments. -/
def deliveredMessageOf (insertedMessage : MessageRow) (participants : List ParticipantProfile)
    (senderProfile : ParticipantProfile) (uploadedAttachments : List MessageAttachment) :
    ConversationMessage :=
  formatMessage insertedMessage [] participants senderProfile
    (if uploadedAttachments.any (fun a => decide (a.status = DeliveryStatus.error))
     then .error else .sent)
    (if uploadedAttachments.length = 0 then none else some uploadedAttachments)

/-- The reconciliation step of `sendMessage`: replace the temporary-id entry
with the delivered message (same position), promote the conversation with the
server timestamp, clear the `sending` flag. -/
def reconcilePhase (delivered : ConversationMessage) (conversationId : String)
    (temporaryId : String) (serverCreatedAt : String) (st : MessagingState) :
    MessagingState :=
  { st with
      messagesByConversation := recSet st.messagesByConversation conversationId
        ((recGetD st.messagesByConversation conversationId).map (fun m =>
          if m.id = temporaryId then delivered else m))
      conversations := promoteConversation conversationId delivered serverCreatedAt st.conversations
      sending := false }

/-- The message row the insert returns on success: server id and timestamp,
remaining columns echoing the insert payload. -/
def insertedMessageRow (u : MessagingUser) (opts : SendMessageOptions)
    (serverId : String) (serverCreatedAt : String) : MessageRow :=
  { id := serverId
    conversation_id := opts.conversationId
    content := jsTrim opts.content
    created_at := serverCreatedAt
    sender_id := u.id
    sender_role := u.role
    topic := opts.topic }

/-- The `deliveredMessage` a successful send reconciles with: the echoed server
row, the roster re-read from current state (the source reads
`conversationsRef.current`), and the attachment-loop outcomes. -/
def sendDelivered (u : MessagingUser) (env : SendEnv) (opts : SendMessageOptions)
    (senderProfile : ParticipantProfile) (serverId : String) (serverCreatedAt : String)
    (st : MessagingState) : ConversationMessage :=
  deliveredMessageOf (insertedMessageRow u opts serverId serverCreatedAt)
    (getParticipants st.conversations opts.conversationId) senderProfile
    (attachmentLoop env env.createdAt serverId 0 opts.attachments).1

/-- The continuation of `sendMessage` after the message-row insert resolves
successfully: the attachment loop, the delivered message and the
reconciliation step.  `st` is the state at resumption time — the insert
`await` is a suspension point, so push handlers may have run since the
speculation step (the source reads `conversationsRef.current` here). -/
def sendAfterInsert (u : MessagingUser) (env : SendEnv) (opts : SendMessageOptions)
    (senderProfile : ParticipantProfile) (serverId : String) (serverCreatedAt : String)
    (st : MessagingState) : MessagingState × List NetCall :=
  let loop := attachmentLoop env env.createdAt serverId 0 opts.attachments
  let delivered := sendDelivered u env opts senderProfile serverId serverCreatedAt st
  let st1 := match loop.2.1 with
    | some m => { st with error := some m }
    | none => st
  (reconcilePhase delivered opts.conversationId env.temporaryId serverCreatedAt st1,
   loop.2.2)

/-- The observable result of one `sendMessage` run: the final state, the trace
of network calls, and whether `setSending(true)` was ever executed. -/
structure SendResult where
  state : MessagingState
  calls : List NetCall
  sendingSet : Bool
deriving DecidableEq, Repr

/-- `sendMessage` — the full pipeline, run without interleaving: validate,
speculate, insert the message row, then either mark the failure or run the
attachment loop and reconcile. -/
def sendMessage (currentUser : Option MessagingUser) (env : SendEnv)
    (opts : SendMessageOptions) (st : MessagingState) : SendResult :=
  match currentUser with
  | none =>
      { state := { st with error := some "Debes iniciar sesión para enviar mensajes." }
        calls := []
        sendingSet := false }
  | some u =>
      if jsTrim opts.content = "" then { state := st, calls := [], sendingSet := false }
      else
        let senderProfile :=
          senderProfileFor u (getParticipants st.conversations opts.conversationId)
        let optimisticMessage := optimisticMessageOf u env opts st
        let st1 := speculatePhase optimisticMessage opts.conversationId env.createdAt st
        match env.insertOutcome with
        | .ierror msg =>
            { state := markInsertErrorPhase opts.conversationId env.temporaryId
                (msg.getD "No se pudo enviar el mensaje.") st1
              calls := [.insertMsg]
              sendingSet := true }
        | .iok serverId serverCreatedAt =>
            let continued := sendAfterInsert u env opts senderProfile serverId serverCreatedAt st1
            { state := continued.1
              calls := NetCall.insertMsg :: continued.2
              sendingSet := true }

/-- Specification predicate for directory promotion: `result` is `orig` with
the conversation `conversationId` moved to index 0, its `updatedAt` set to the
message's `createdAt` and its `lastMessage` set to the message, the remaining
conversations following in their original relative order. -/
def promotedFrom (orig result : List ConversationPreview) (conversationId : String)
    (msg : ConversationMessage) : Prop :=
  ∃ c, orig.find? (fun x => decide (x.id = conversationId)) = some c ∧
    result = { c with updatedAt := msg.createdAt, lastMessage := some msg } ::
      orig.filter (fun x => !(decide (x.id = conversationId)))

/-- Whether an attachment outcome is a failure (upload or row write). -/
def attachmentOutcomeFails : AttachmentOutcome → Bool
  | .rowOk _ _ _ => false
  | _ => true

/-- Concrete fixture: the viewer. -/
def uW : MessagingUser := { id := "u1", name := "User One", role := "borrower", avatarUrl := none }

/-- Concrete fixture: the viewer's participant record. -/
def pW : ParticipantProfile :=
  { id := "u1", displayName := "User One", avatarUrl := none, role := "borrower",
    isCurrentUser := true }

/-- Concrete fixture: a second participant. -/
def qW : ParticipantProfile :=
  { id := "u2", displayName := "User Two", avatarUrl := none, role := "agent",
    isCurrentUser := false }

/-- Concrete fixture: conversation `c1` with both participants. -/
def convW : ConversationPreview :=
  { id := "c1", title := some "Loan", updatedAt := "t0", participants := [pW, qW],
    lastMessage := none }

/-- Concrete fixture: conversation `c2`. -/
def convW2 : ConversationPreview :=
  { id := "c2", title := none, updatedAt := "t0", participants := [pW], lastMessage := none }

/-- Concrete fixture: initial state with both conversations loaded and empty
cached message lists. -/
def stW : MessagingState :=
  { conversations := [convW, convW2]
    messagesByConversation := [("c1", []), ("c2", [])]
    selectedConversationId := some "c1"
    loadingConversations := false
    loadingMessages := false
    sending := false
    error := none }

/-- Concrete fixture: the same state with no conversation selected. -/
def stN : MessagingState := { stW with selectedConversationId := none }

/-- Concrete fixture: a send environment whose message insert succeeds with
server id `S`, every attachment succeeding. -/
def envOkW : SendEnv :=
  { temporaryId := "T"
    createdAt := "t0"
    insertOutcome := .iok "S" "t1"
    attachmentOutcomes := fun _ => .rowOk "p" "a1" "t1"
    publicUrl := fun p => "https://cdn/" ++ p }

/-- Concrete fixture: a send environment whose message insert fails. -/
def envFailW : SendEnv :=
  { temporaryId := "T"
    createdAt := "t0"
    insertOutcome := .ierror (some "boom")
    attachmentOutcomes := fun _ => .uploadError "boom"
    publicUrl := fun _ => "" }

/-- Concrete fixture: a send environment where attachment 0 succeeds and
attachment 1 fails its upload. -/
def envMixW : SendEnv :=
  { temporaryId := "T"
    createdAt := "t0"
    insertOutcome := .iok "S" "t1"
    attachmentOutcomes := fun i => if i = 0 then .rowOk "p0" "a0" "t1" else .uploadError "upfail"
    publicUrl := fun p => "https://cdn/" ++ p }

/-- Concrete fixture: a plain send into `c1`. -/
def optsW : SendMessageOptions :=
  { conversationId := "c1", content := "hola", topic := none, attachments := [] }

/-- Concrete fixture: a whitespace-only send. -/
def optsBlankW : SendMessageOptions :=
  { conversationId := "c1", content := "   ", topic := none, attachments := [] }

/-- Concrete fixture: a send with two attachments. -/
def optsAttW : SendMessageOptions :=
  { conversationId := "c1", content := "hola", topic := none,
    attachments := [{ name := "a.pdf", fileType := "application/pdf", size := some 10 },
                    { name := "b.pdf", fileType := "", size := none }] }

/-- Concrete fixture: the server row for the message confirmed with id `S`,
as the realtime feed delivers it. -/
def rowSW : MessageRow :=
  { id := "S", conversation_id := "c1", content := "hola", created_at := "t1",
    sender_id := "u1", sender_role := "borrower", topic := none }

/-- Concrete fixture: the interleaving where the push-insert event for server
id `S` is handled between the message-row insert and the send pipeline's
reconciliation step (the insert `await` and each upload `await` are suspension
points, so this interleaving is realizable in the event loop). -/
def c1PushFirstRun : MessagingState :=
  let st1 := speculatePhase (optimisticMessageOf uW envOkW optsW stW) optsW.conversationId
    envOkW.createdAt stW
  let st2 := pushMessageHandler uW rowSW [] st1
  (sendAfterInsert uW envOkW optsW
    (senderProfileFor uW (getParticipants stW.conversations optsW.conversationId))
    "S" "t1" st2).1

/-- Concrete fixture: a sent message cached under `c1`. -/
def msgW : ConversationMessage :=
  { id := "S", conversationId := "c1", content := "hola", topic := none,
    createdAt := "t1", sender := pW, attachments := [], status := .sent,
    optimisticKey := none }

/-- Concrete fixture: the state with `msgW` cached under `c1`. -/
def stMsgW : MessagingState :=
  { stW with messagesByConversation := [("c1", [msgW]), ("c2", [])] }

/-- Concrete fixture: an attachment row pushed for message `S`. -/
def attRowW : AttachmentRow :=
  { id := "a9", message_id := "S", name := "x.pdf", url := some "u",
    content_type := none, storage_path := none, size := none, created_at := "t2" }

/-! Helper lemmas about the record model and the shared updaters. -/

theorem recFind_recSet_self (rec : MessagesMap) (k : String)
    (v : List ConversationMessage) : recFind (recSet rec k v) k = some v := by
  induction rec with
  | nil => simp [recSet, recFind]
  | cons e rest ih =>
      by_cases h : e.1 = k
      · simp [recSet, h, recFind]
      · simpa [recSet, h, recFind] using ih

theorem recFind_recSet_ne (rec : MessagesMap) (k k' : String)
    (v : List ConversationMessage) (h : k' ≠ k) :
    recFind (recSet rec k v) k' = recFind rec k' := by
  have hkk : ¬(k = k') := fun hh => h hh.symm
  induction rec with
  | nil =>
      show recFind [(k, v)] k' = recFind [] k'
      unfold recFind
      rw [List.find?_cons_of_neg _ (by simpa using hkk)]
  | cons e rest ih =>
      by_cases he : e.1 = k
      · show recFind (if e.1 = k then (k, v) :: rest else e :: recSet rest k v) k' = _
        rw [if_pos he]
        unfold recFind
        rw [List.find?_cons_of_neg _ (by simpa using hkk),
          List.find?_cons_of_neg _ (by simp [he, hkk])]
      · show recFind (if e.1 = k then (k, v) :: rest else e :: recSet rest k v) k' = _
        rw [if_neg he]
        by_cases he' : e.1 = k'
        · unfold recFind
          rw [List.find?_cons_of_pos _ (by simpa using he'),
            List.find?_cons_of_pos _ (by simpa using he')]
        · unfold recFind at ih ⊢
          rw [List.find?_cons_of_neg _ (by simpa using he'),
            List.find?_cons_of_neg _ (by simpa using he')]
          exact ih

theorem recGetD_recSet_self (rec : MessagesMap) (k : String)
    (v : List ConversationMessage) : recGetD (recSet rec k v) k = v := by
  simp [recGetD, recFind_recSet_self]

theorem getParticipants_promoteConversation (conversations : List ConversationPreview)
    (conversationId : String) (m : ConversationMessage) (t : String) :
    getParticipants (promoteConversation conversationId m t conversations) conversationId =
      getParticipants conversations conversationId := by
  unfold promoteConversation
  cases hfind : conversations.find? (fun c => decide (c.id = conversationId)) with
  | none => rfl
  | some c =>
      have hc : c.id = conversationId := by simpa using List.find?_some hfind
      unfold getParticipants
      rw [hfind, List.find?_cons_of_pos _ (by simpa using hc)]
      rfl

theorem promoteConversation_idem (conversationId : String) (m : ConversationMessage)
    (t : String) (l : List ConversationPreview) :
    promoteConversation conversationId m t (promoteConversation conversationId m t l) =
      promoteConversation conversationId m t l := by
  unfold promoteConversation
  cases hfind : l.find? (fun c => decide (c.id = conversationId)) with
  | none => simp [hfind]
  | some c =>
      have hc : c.id = conversationId := by simpa using List.find?_some hfind
      rw [List.find?_cons_of_pos _ (by simpa using hc)]
      have hfilter :
          (l.filter (fun x => !(decide (x.id = conversationId)))).filter
              (fun x => !(decide (x.id = conversationId))) =
            l.filter (fun x => !(decide (x.id = conversationId))) := by
        rw [List.filter_filter]
        simp
      rw [List.filter_cons_of_neg (by simpa using hc)]
      rw [hfilter]

theorem mergeMessageInsert_idem (p : MessagesMap) (conversationId : String)
    (fm : ConversationMessage) :
    mergeMessageInsert (mergeMessageInsert p conversationId fm) conversationId fm =
      mergeMessageInsert p conversationId fm := by
  by_cases h : (recGetD p conversationId).any (fun m => decide (m.id = fm.id)) = true
  · have h1 : mergeMessageInsert p conversationId fm = p := by
      unfold mergeMessageInsert
      rw [if_pos h]
    rw [h1, h1]
  · have h1 : mergeMessageInsert p conversationId fm =
        recSet p conversationId
          (recGetD p conversationId ++ [{ fm with status := .sent }]) := by
      unfold mergeMessageInsert
      rw [if_neg h]
    rw [h1]
    unfold mergeMessageInsert
    rw [recGetD_recSet_self, if_pos (by simp)]

theorem pushFormattedMessage_promoteConversation (u : MessagingUser) (row : MessageRow)
    (atts : List AttachmentRow) (m : ConversationMessage) (t : String)
    (l : List ConversationPreview) :
    pushFormattedMessage u row atts (promoteConversation row.conversation_id m t l) =
      pushFormattedMessage u row atts l := by
  unfold pushFormattedMessage
  rw [getParticipants_promoteConversation]

theorem promoteConversation_spec (l : List ConversationPreview) (conversationId : String)
    (msg : ConversationMessage) (t : String)
    (h : ∃ c ∈ l, c.id = conversationId) (ht : t = msg.createdAt) :
    promotedFrom l (promoteConversation conversationId msg t l) conversationId msg := by
  have hsome : (l.find? (fun c => decide (c.id = conversationId))).isSome := by
    rw [List.find?_isSome]
    obtain ⟨c, hc, hid⟩ := h
    exact ⟨c, hc, by simpa using hid⟩
  obtain ⟨c, hfind⟩ := Option.isSome_iff_exists.mp hsome
  refine ⟨c, hfind, ?_⟩
  unfold promoteConversation
  rw [hfind]
  subst ht
  rfl

theorem sendAfterInsert_conversations (u : MessagingUser) (env : SendEnv)
    (opts : SendMessageOptions) (sp : ParticipantProfile) (sid sct : String)
    (st : MessagingState) :
    ((sendAfterInsert u env opts sp sid sct st).1).conversations =
      promoteConversation opts.conversationId (sendDelivered u env opts sp sid sct st)
        sct st.conversations := by
  simp only [sendAfterInsert, reconcilePhase]
  split <;> rfl

/-- Claim C2: the push-insert merge for messages is idempotent — for every
cached state and every message-insert event, applying the merge twice yields
the same state as applying it once; a message whose id is already present in
the conversation's cached list is never appended a second time. -/
theorem c2_push_merge_idempotent (u : MessagingUser) (row : MessageRow)
    (atts : List AttachmentRow) (st : MessagingState) :
    pushMessageHandler u row atts (pushMessageHandler u row atts st) =
      pushMessageHandler u row atts st := by
  simp only [pushMessageHandler]
  rw [pushFormattedMessage_promoteConversation]
  rw [mergeMessageInsert_idem, promoteConversation_idem]

/-- Claim C5: after any operation in which a new message (optimistic send or
push-confirmed insert) affects conversation C that is present in the directory
list, C is at index 0 of the directory list with its `updatedAt` and
`lastMessage` set to that message's values, and the other conversations retain
their relative order. -/
theorem c5_directory_promotion (u : MessagingUser) (row : MessageRow)
    (atts : List AttachmentRow) (env : SendEnv) (opts : SendMessageOptions)
    (st st2 : MessagingState) (sp : ParticipantProfile) (sid sct : String)
    (hpush : ∃ c ∈ st.conversations, c.id = row.conversation_id)
    (hspec : ∃ c ∈ st.conversations, c.id = opts.conversationId)
    (hrec : ∃ c ∈ st2.conversations, c.id = opts.conversationId) :
    promotedFrom st.conversations (pushMessageHandler u row atts st).conversations
      row.conversation_id
      { pushFormattedMessage u row atts st.conversations with status := .sent } ∧
    promotedFrom st.conversations
      ((speculatePhase (optimisticMessageOf u env opts st) opts.conversationId
        env.createdAt st)).conversations
      opts.conversationId (optimisticMessageOf u env opts st) ∧
    promotedFrom st2.conversations ((sendAfterInsert u env opts sp sid sct st2).1).conversations
      opts.conversationId (sendDelivered u env opts sp sid sct st2) := by
  refine ⟨?_, ?_, ?_⟩
  · exact promoteConversation_spec _ _ _ _ hpush rfl
  · exact promoteConversation_spec _ _ _ _ hspec rfl
  · rw [sendAfterInsert_conversations]
    exact promoteConversation_spec _ _ _ _ hrec rfl

/-- Witness for C5 at a concrete input: the push of the confirmed row promotes
conversation `c1` to the front of the concrete two-conversation directory. -/
theorem c5_directory_promotion_witness :
    promotedFrom stW.conversations (pushMessageHandler uW rowSW [] stW).conversations
      "c1" { pushFormattedMessage uW rowSW [] stW.conversations with status := .sent } :=
  (c5_directory_promotion uW rowSW [] envOkW optsW stW stW
    (senderProfileFor uW (getParticipants stW.conversations optsW.conversationId))
    "S" "t1" (by decide) (by decide) (by decide)).1

/-- Claim C1 (code-bug exhibit): in the interleaving where the push-insert
event for the confirmed server id `S` is applied between the message-row
insert and the send pipeline's reconciliation step, the conversation's cached
list ends with TWO entries carrying id `S` (the pushed copy and the
reconciled copy of the optimistic entry), not exactly one as the claim
states — the reconciliation replaces the temporary id unconditionally and
never checks whether `S` already arrived via push. -/
theorem c1_push_first_duplicates_confirmed_id :
    ((recGetD c1PushFirstRun.messagesByConversation "c1").countP
        (fun m => decide (m.id = "S"))) = 2 ∧
    ((recGetD c1PushFirstRun.messagesByConversation "c1").countP
        (fun m => decide (m.id = "T"))) = 0 := by
  decide

/-- Claim C6 (counterexample): a call whose content trims to the empty string
is NOT always a complete no-op — when no user is authenticated the
authentication guard runs first and surfaces an error, because the source
checks `currentUser` before trimming. -/
theorem c6_blank_call_surfaces_auth_error :
    jsTrim optsBlankW.content = "" ∧
    stW.error = none ∧
    (sendMessage none envOkW optsBlankW stW).state.error =
      some "Debes iniciar sesión para enviar mensajes." := by
  refine ⟨by decide, by decide, ?_⟩
  rfl

/-- Claim C6 (amended): for every call to `sendMessage` with an authenticated
current user whose content trims to the empty string, the call is a complete
no-op on observable state — no entry is added to any conversation's message
list, the directory list is unchanged, the sending flag is never set, no
network call is made and no error is surfaced. -/
theorem c6_blank_content_noop (u : MessagingUser) (env : SendEnv)
    (opts : SendMessageOptions) (st : MessagingState)
    (h : jsTrim opts.content = "") :
    sendMessage (some u) env opts st =
      { state := st, calls := [], sendingSet := false } := by
  simp [sendMessage, h]

/-- Witness for the amended C6 at a concrete input: the whitespace-only send
leaves the concrete state untouched. -/
theorem c6_blank_content_noop_witness :
    jsTrim optsBlankW.content = "" ∧
    sendMessage (some uW) envOkW optsBlankW stW =
      { state := stW, calls := [], sendingSet := false } :=
  ⟨by decide, c6_blank_content_noop uW envOkW optsBlankW stW (by decide)⟩

/-- Claim C7: for every failed directory fetch and every failed
message-history fetch, the only state changes are setting the error string and
clearing the loading flag — the conversation list and every conversation's
cached message list are left at their previous values. -/
theorem c7_fetch_failure_preserves_data (u : MessagingUser) (msg1 msg2 : String)
    (conversationId : String) (st st' : MessagingState) :
    fetchConversations (some u) (.error msg1) st =
      { st with error := some msg1, loadingConversations := false } ∧
    fetchMessages (some u) conversationId (.error msg2) st' =
      { st' with error := some msg2, loadingMessages := false } :=
  ⟨rfl, rfl⟩

/-- Claim C8 (counterexample): invoking `sendMessage` while no conversation is
selected does NOT surface an error and does NOT abort — with an authenticated
user the pipeline runs in full: the speculative entry is created, the message
insert is issued, and the error state stays `none`.  The source has no
selection check; only the missing-user guard aborts. -/
theorem c8_unselected_send_proceeds :
    stN.selectedConversationId = none ∧
    (sendMessage (some uW) envOkW optsW stN).state.error = none ∧
    (sendMessage (some uW) envOkW optsW stN).calls = [NetCall.insertMsg] ∧
    (recGetD (sendMessage (some uW) envOkW optsW stN).state.messagesByConversation
      "c1").length = 1 ∧
    (recGetD stN.messagesByConversation "c1").length = 0 := by
  decide

/-- Claim C8 (amended): for every invocation of `sendMessage` with no
authenticated current user, the pipeline surfaces the authentication error and
aborts before the speculative insert and before any network call — the state
is unchanged except for the error string, the call trace is empty and the
sending flag is never set. -/
theorem c8_unauthenticated_send_aborts (env : SendEnv) (opts : SendMessageOptions)
    (st : MessagingState) :
    sendMessage none env opts st =
      { state := { st with error := some "Debes iniciar sesión para enviar mensajes." }
        calls := []
        sendingSet := false } :=
  rfl

/-- Claim C4: for every send whose message-row insert fails, the speculative
pending entry remains in the conversation's cached list at its position with
status changed to `"error"` (it is not removed), the failure string is
surfaced in shared error state, and no attachment upload or attachment
row-write is attempted (the call trace holds the message insert only). -/
theorem c4_insert_failure_marks_in_place (u : MessagingUser) (env : SendEnv)
    (opts : SendMessageOptions) (st : MessagingState) (emsg : Option String)
    (hIns : env.insertOutcome = .ierror emsg)
    (hTrim : jsTrim opts.content ≠ "")
    (hFresh : ∀ m ∈ recGetD st.messagesByConversation opts.conversationId,
      m.id ≠ env.temporaryId) :
    (sendMessage (some u) env opts st).calls = [NetCall.insertMsg] ∧
    (sendMessage (some u) env opts st).state.error =
      some (emsg.getD "No se pudo enviar el mensaje.") ∧
    recGetD (sendMessage (some u) env opts st).state.messagesByConversation
        opts.conversationId =
      recGetD st.messagesByConversation opts.conversationId ++
        [{ optimisticMessageOf u env opts st with status := .error }] := by
  have hrun : sendMessage (some u) env opts st =
      { state := markInsertErrorPhase opts.conversationId env.temporaryId
          (emsg.getD "No se pudo enviar el mensaje.")
          (speculatePhase (optimisticMessageOf u env opts st) opts.conversationId
            env.createdAt st)
        calls := [NetCall.insertMsg]
        sendingSet := true } := by
    simp [sendMessage, hTrim, hIns]
  refine ⟨by rw [hrun], by rw [hrun]; rfl, ?_⟩
  rw [hrun]
  show recGetD (recSet (recSet st.messagesByConversation opts.conversationId
      (recGetD st.messagesByConversation opts.conversationId ++
        [optimisticMessageOf u env opts st])) opts.conversationId
      ((recGetD (recSet st.messagesByConversation opts.conversationId
        (recGetD st.messagesByConversation opts.conversationId ++
          [optimisticMessageOf u env opts st])) opts.conversationId).map (fun m =>
        if m.id = env.temporaryId then { m with status := .error } else m)))
      opts.conversationId = _
  rw [recGetD_recSet_self, recGetD_recSet_self, List.map_append]
  have hleft : (recGetD st.messagesByConversation opts.conversationId).map (fun m =>
      if m.id = env.temporaryId then { m with status := .error } else m) =
      recGetD st.messagesByConversation opts.conversationId := by
    have := List.map_congr_left (l := recGetD st.messagesByConversation opts.conversationId)
      (f := fun m => if m.id = env.temporaryId then { m with status := .error } else m)
      (g := id) (fun m hm => by simp [id, hFresh m hm])
    rw [this, List.map_id]
  rw [hleft]
  have hright : [optimisticMessageOf u env opts st].map (fun m =>
      if m.id = env.temporaryId then { m with status := .error } else m) =
      [{ optimisticMessageOf u env opts st with status := .error }] := by
    simp only [List.map_cons, List.map_nil]
    rw [if_pos (show (optimisticMessageOf u env opts st).id = env.temporaryId from rfl)]
  rw [hright]

/-- Witness for C4 at a concrete input: a failed insert of a plain send leaves
the optimistic entry in `c1`'s list, marked `"error"`. -/
theorem c4_insert_failure_marks_in_place_witness :
    (sendMessage (some uW) envFailW optsW stW).calls = [NetCall.insertMsg] ∧
    recGetD (sendMessage (some uW) envFailW optsW stW).state.messagesByConversation
        "c1" =
      recGetD stW.messagesByConversation "c1" ++
        [{ optimisticMessageOf uW envFailW optsW stW with status := .error }] :=
  ⟨(c4_insert_failure_marks_in_place uW envFailW optsW stW (some "boom") rfl
      (by decide) (by decide)).1,
   (c4_insert_failure_marks_in_place uW envFailW optsW stW (some "boom") rfl
      (by decide) (by decide)).2.2⟩

/-- Claim C9: for every conversation id and every prior cache state, a
successful `fetchMessages` replaces the cached list for that conversation
wholesale with the formatted server rows, each with status `"sent"` (so any
pending or error optimistic entries previously cached there are discarded),
while the cached lists of all other conversations and the directory list are
unchanged. -/
theorem c9_fetch_messages_wholesale_replace (u : MessagingUser)
    (conversationId : String) (rows : List MessageWithAttachments)
    (st : MessagingState) :
    recGetD (fetchMessages (some u) conversationId (.ok rows) st).messagesByConversation
        conversationId =
      rows.map (fun row => formatMessage row.row row.attachments
        (getParticipants st.conversations conversationId)
        (fallbackSenderFor u (getParticipants st.conversations conversationId))
        .sent none) ∧
    (∀ m ∈ recGetD (fetchMessages (some u) conversationId
        (.ok rows) st).messagesByConversation conversationId,
      m.status = .sent) ∧
    (∀ c, c ≠ conversationId →
      recFind (fetchMessages (some u) conversationId (.ok rows) st).messagesByConversation c =
        recFind st.messagesByConversation c) ∧
    (fetchMessages (some u) conversationId (.ok rows) st).conversations =
      st.conversations := by
  have h1 : (fetchMessages (some u) conversationId (.ok rows) st).messagesByConversation =
      recSet st.messagesByConversation conversationId
        (rows.map (fun row => formatMessage row.row row.attachments
          (getParticipants st.conversations conversationId)
          (fallbackSenderFor u (getParticipants st.conversations conversationId))
          .sent none)) := rfl
  refine ⟨?_, ?_, ?_, rfl⟩
  · rw [h1, recGetD_recSet_self]
  · intro m hm
    rw [h1, recGetD_recSet_self] at hm
    rcases List.mem_map.mp hm with ⟨row, _, rfl⟩
    rfl
  · intro c hc
    rw [h1]
    exact recFind_recSet_ne _ _ _ _ hc

/-- Witness for C9 at a concrete input: refetching `c1` leaves `c2`'s cached
list untouched. -/
theorem c9_fetch_messages_wholesale_replace_witness :
    recFind (fetchMessages (some uW) "c1" (.ok []) stW).messagesByConversation "c2" =
      recFind stW.messagesByConversation "c2" :=
  (c9_fetch_messages_wholesale_replace uW "c1" [] stW).2.2.1 "c2" (by decide)

theorem attachmentStep_status_url (env : SendEnv) (c s : String) (i : Nat)
    (f : FileInput) :
    (attachmentStep env c s i f).1.status =
      (match env.attachmentOutcomes i with
        | .rowOk _ _ _ => DeliveryStatus.sent
        | _ => DeliveryStatus.error) ∧
    (attachmentStep env c s i f).1.url =
      (match env.attachmentOutcomes i with
        | .uploadError _ => none
        | .rowError p _ => some (env.publicUrl p)
        | .rowOk p _ _ => some (env.publicUrl p)) := by
  cases h : env.attachmentOutcomes i <;> simp [attachmentStep, h, formatAttachment]

theorem attachmentStep_error_iff (env : SendEnv) (c s : String) (i : Nat)
    (f : FileInput) :
    (attachmentStep env c s i f).1.status = DeliveryStatus.error ↔
      attachmentOutcomeFails (env.attachmentOutcomes i) = true := by
  cases h : env.attachmentOutcomes i <;>
    simp [attachmentStep, attachmentOutcomeFails, h, formatAttachment]

theorem attachmentLoop_fst_getElem (env : SendEnv) (c s : String) :
    ∀ (files : List FileInput) (n i : Nat),
      ((attachmentLoop env c s n files).1)[i]? =
        (files[i]?).map (fun f => (attachmentStep env c s (n + i) f).1) := by
  intro files
  induction files with
  | nil => intro n i; simp [attachmentLoop]
  | cons f rest ih =>
      intro n i
      cases i with
      | zero => simp [attachmentLoop]
      | succ j =>
          have harith : n + 1 + j = n + (j + 1) := by omega
          simp only [attachmentLoop, List.getElem?_cons_succ]
          rw [ih (n + 1) j, harith]

theorem attachmentLoop_any_error (env : SendEnv) (c s : String) :
    ∀ (files : List FileInput) (n : Nat),
      ((attachmentLoop env c s n files).1.any
          (fun a => decide (a.status = DeliveryStatus.error)) = true) ↔
        ∃ i, i < files.length ∧
          attachmentOutcomeFails (env.attachmentOutcomes (n + i)) = true := by
  intro files
  induction files with
  | nil => intro n; simp [attachmentLoop]
  | cons f rest ih =>
      intro n
      simp only [attachmentLoop, List.any_cons, Bool.or_eq_true, decide_eq_true_eq]
      constructor
      · rintro (h | h)
        · exact ⟨0, by simp, by
            simpa using (attachmentStep_error_iff env c s n f).mp h⟩
        · obtain ⟨i, hi, hf⟩ := (ih (n + 1)).mp h
          exact ⟨i + 1, by simpa using Nat.succ_lt_succ hi, by
            have harith : n + (i + 1) = n + 1 + i := by omega
            rw [harith]; exact hf⟩
      · rintro ⟨i, hi, hf⟩
        cases i with
        | zero =>
            left
            exact (attachmentStep_error_iff env c s n f).mpr (by simpa using hf)
        | succ j =>
            right
            refine (ih (n + 1)).mpr ⟨j, by simpa using Nat.lt_of_succ_lt_succ hi, ?_⟩
            have harith : n + 1 + j = n + (j + 1) := by omega
            rw [harith]; exact hf

theorem deliveredMessageOf_attachments (im : MessageRow)
    (ps : List ParticipantProfile) (sp : ParticipantProfile)
    (atts : List MessageAttachment) :
    (deliveredMessageOf im ps sp atts).attachments = atts := by
  unfold deliveredMessageOf formatMessage
  by_cases h : atts.length = 0
  · have hnil : atts = [] := List.length_eq_zero.mp h
    subst hnil
    simp
  · simp [h]

/-- Claim C3: for every send reaching the attachment loop, each attachment's
outcome is independent of its siblings — the delivered message has status
`"error"` iff at least one attachment outcome failed; the attachment recorded
at index `i` depends only on outcome `i`: on success it is `"sent"` with the
non-null public url, on upload failure `"error"` with a null url, on row-write
failure `"error"` keeping the public url obtained from the upload; and the
message's text content equals the trimmed input content regardless of the
attachment outcomes. -/
theorem c3_attachment_failure_containment (u : MessagingUser) (env : SendEnv)
    (opts : SendMessageOptions) (sp : ParticipantProfile) (sid sct : String)
    (st : MessagingState) :
    (sendDelivered u env opts sp sid sct st).content = jsTrim opts.content ∧
    ((sendDelivered u env opts sp sid sct st).status = .error ↔
      ∃ i, i < opts.attachments.length ∧
        attachmentOutcomeFails (env.attachmentOutcomes i) = true) ∧
    ∀ i, i < opts.attachments.length →
      ∃ a, ((sendDelivered u env opts sp sid sct st).attachments)[i]? = some a ∧
        a.status = (match env.attachmentOutcomes i with
          | .rowOk _ _ _ => DeliveryStatus.sent
          | _ => DeliveryStatus.error) ∧
        a.url = (match env.attachmentOutcomes i with
          | .uploadError _ => none
          | .rowError p _ => some (env.publicUrl p)
          | .rowOk p _ _ => some (env.publicUrl p)) := by
  have hatts : (sendDelivered u env opts sp sid sct st).attachments =
      (attachmentLoop env env.createdAt sid 0 opts.attachments).1 :=
    deliveredMessageOf_attachments _ _ _ _
  refine ⟨rfl, ?_, ?_⟩
  · have hstatus : (sendDelivered u env opts sp sid sct st).status =
        (if (attachmentLoop env env.createdAt sid 0 opts.attachments).1.any
            (fun a => decide (a.status = DeliveryStatus.error))
          then DeliveryStatus.error else DeliveryStatus.sent) := rfl
    rw [hstatus]
    by_cases h : (attachmentLoop env env.createdAt sid 0 opts.attachments).1.any
        (fun a => decide (a.status = DeliveryStatus.error)) = true
    · rw [if_pos h]
      simpa using (attachmentLoop_any_error env env.createdAt sid opts.attachments 0).mp h
    · rw [if_neg h]
      constructor
      · intro hcontra
        exact absurd hcontra (by simp)
      · intro hex
        obtain ⟨i, hi, hf⟩ := hex
        exact absurd ((attachmentLoop_any_error env env.createdAt sid
          opts.attachments 0).mpr ⟨i, hi, by simpa using hf⟩) h
  · intro i hi
    have hfile : ∃ f, (opts.attachments)[i]? = some f :=
      ⟨opts.attachments[i], (List.getElem?_eq_getElem hi)⟩
    obtain ⟨f, hf⟩ := hfile
    refine ⟨(attachmentStep env env.createdAt sid i f).1, ?_, ?_, ?_⟩
    · rw [hatts, attachmentLoop_fst_getElem, hf]
      simp
    · exact (attachmentStep_status_url env env.createdAt sid i f).1
    · exact (attachmentStep_status_url env env.createdAt sid i f).2

/-- Witness for C3 at a concrete input: a send with attachments `[a.pdf
(succeeds), b.pdf (upload fails)]` yields a delivered message with status
`"error"` whose attachment 1 is `"error"` with a null url. -/
theorem c3_attachment_failure_containment_witness :
    ((sendDelivered uW envMixW optsAttW pW "S" "t1" stW).status = .error ↔
      ∃ i, i < optsAttW.attachments.length ∧
        attachmentOutcomeFails (envMixW.attachmentOutcomes i) = true) ∧
    (∃ a, ((sendDelivered uW envMixW optsAttW pW "S" "t1" stW).attachments)[1]? =
        some a ∧
      a.status = (match envMixW.attachmentOutcomes 1 with
        | .rowOk _ _ _ => DeliveryStatus.sent
        | _ => DeliveryStatus.error) ∧
      a.url = (match envMixW.attachmentOutcomes 1 with
        | .uploadError _ => none
        | .rowError p _ => some (envMixW.publicUrl p)
        | .rowOk p _ _ => some (envMixW.publicUrl p))) :=
  ⟨(c3_attachment_failure_containment uW envMixW optsAttW pW "S" "t1" stW).2.1,
   (c3_attachment_failure_containment uW envMixW optsAttW pW "S" "t1" stW).2.2 1
     (by decide)⟩

theorem pushAttachmentHandler_eq (row : AttachmentRow) (st : MessagingState) :
    pushAttachmentHandler row st =
      match st.messagesByConversation.find?
          (fun e => e.2.any (fun m => decide (m.id = row.message_id))) with
      | none => st
      | some entry =>
          { st with
              messagesByConversation := recSet st.messagesByConversation entry.1
                (entry.2.map (fun m =>
                  if m.id = row.message_id then
                    { m with attachments :=
                        (m.attachments.filter (fun a => !(decide (a.id = row.id)))) ++
                          [{ formatAttachment row with status := .sent }] }
                  else m)) } := rfl

/-- Claim C10: an attachment-insert push event whose `message_id` matches no
message in any conversation's cached list leaves the message cache unchanged
(the event is silently dropped, not buffered); when a match exists, only that
message's attachment list changes — any attachment with the same id is
removed, the new attachment is appended at the end with status `"sent"`, every
other field of every message is unchanged, and every other conversation's
cached list is unchanged. -/
theorem c10_attachment_insert_merge (row : AttachmentRow) (st : MessagingState) :
    ((∀ e ∈ st.messagesByConversation, ∀ m ∈ e.2, m.id ≠ row.message_id) →
      pushAttachmentHandler row st = st) ∧
    (∀ conversationId msgs,
      st.messagesByConversation.find?
          (fun e => e.2.any (fun m => decide (m.id = row.message_id))) =
        some (conversationId, msgs) →
      (∀ c, c ≠ conversationId →
        recFind (pushAttachmentHandler row st).messagesByConversation c =
          recFind st.messagesByConversation c) ∧
      (recGetD (pushAttachmentHandler row st).messagesByConversation
          conversationId).length = msgs.length ∧
      (∀ (i : Nat) (m : ConversationMessage), msgs[i]? = some m →
        m.id ≠ row.message_id →
        (recGetD (pushAttachmentHandler row st).messagesByConversation
          conversationId)[i]? = some m) ∧
      (∀ (i : Nat) (m : ConversationMessage), msgs[i]? = some m →
        m.id = row.message_id →
        (recGetD (pushAttachmentHandler row st).messagesByConversation
          conversationId)[i]? =
          some { m with attachments :=
            (m.attachments.filter (fun a => !(decide (a.id = row.id)))) ++
              [{ formatAttachment row with status := .sent }] })) := by
  constructor
  · intro hnone
    have hfind : st.messagesByConversation.find?
        (fun e => e.2.any (fun m => decide (m.id = row.message_id))) = none := by
      rw [List.find?_eq_none]
      intro e he
      simp only [List.any_eq_true, decide_eq_true_eq]
      rintro ⟨m, hm, hc⟩
      exact hnone e he m hm hc
    rw [pushAttachmentHandler_eq, hfind]
  · intro conversationId msgs hfind
    have hG : pushAttachmentHandler row st =
        { st with
            messagesByConversation := recSet st.messagesByConversation conversationId
              (msgs.map (fun m =>
                if m.id = row.message_id then
                  { m with attachments :=
                      (m.attachments.filter (fun a => !(decide (a.id = row.id)))) ++
                        [{ formatAttachment row with status := .sent }] }
                else m)) } := by
      rw [pushAttachmentHandler_eq, hfind]
    refine ⟨?_, ?_, ?_, ?_⟩
    · intro c hc
      rw [hG]
      exact recFind_recSet_ne _ _ _ _ hc
    · rw [hG]
      show (recGetD (recSet _ _ _) _).length = _
      rw [recGetD_recSet_self, List.length_map]
    · intro i m hgetm hne
      rw [hG]
      show (recGetD (recSet _ _ _) _)[i]? = _
      rw [recGetD_recSet_self, List.getElem?_map, hgetm]
      simp [hne]
    · intro i m hgetm heq
      rw [hG]
      show (recGetD (recSet _ _ _) _)[i]? = _
      rw [recGetD_recSet_self, List.getElem?_map, hgetm]
      simp [heq]

/-- Witness for C10 at a concrete input: pushing the attachment row for
message `S` merges it into `S`'s attachment list with status `"sent"`. -/
theorem c10_attachment_insert_merge_witness :
    (recGetD (pushAttachmentHandler attRowW stMsgW).messagesByConversation "c1")[0]? =
      some { msgW with attachments :=
        (msgW.attachments.filter (fun a => !(decide (a.id = attRowW.id)))) ++
          [{ formatAttachment attRowW with status := .sent }] } :=
  ((c10_attachment_insert_merge attRowW stMsgW).2 "c1" [msgW] (by decide)).2.2.2 0 msgW
    (by decide) (by decide)

end Messaging
